import Mathlib

/-!
Verification of the `vexy_glob` Python binding and CLI against its
natural-language specification.

The definitions below are a shallow embedding of the Python sources
`vexy_glob/__init__.py` (the `find`/`glob`/`iglob`/`search` wrappers and
`_parse_time_param`) and `vexy_glob/__main__.py` (the CLI, including
`_parse_size`).  The Rust extension module `_vexy_glob` is not part of the
Python source tree; wherever its behaviour matters it is treated as an
abstract function (a parameter of the embedding) or modelled from the spec,
and each such place is marked.

Python conventions used by the embedding:
* Python `float` values are modelled as rationals (`ℚ`); no claim here
  depends on binary floating-point rounding.
* Python strings are Lean `String`s; `str.lower`/`strip`/`rstrip` are
  modelled for ASCII input.
* A Python function that can raise is modelled as `Except`; raising an
  exception at the entry point corresponds to returning `.error` with no
  results produced.
-/

namespace VexyGlob

/-! ### Small Python string helpers -/

/-- Characters Python's `\s` and `str.strip()` treat as whitespace (ASCII). -/
def isPySpace (c : Char) : Bool :=
  c == ' ' || c == '\t' || c == '\n' || c == '\r' || c == '\x0b' || c == '\x0c'

/-- `str.strip()` on a list of characters (ASCII whitespace). -/
def pyStrip (l : List Char) : List Char :=
  ((l.dropWhile isPySpace).reverse.dropWhile isPySpace).reverse

/-- `str.lower()` (ASCII). -/
def lowerStr (s : String) : String := String.mk (s.data.map Char.toLower)

/-- Python's `needle in hay` substring test. -/
def strContains (hay needle : String) : Bool := decide (needle.data <:+: hay.data)

/-- `str.rstrip()` (ASCII whitespace). -/
def pyRstrip (s : String) : String :=
  String.mk (s.data.reverse.dropWhile isPySpace).reverse

/-- Python `int()` applied to a nonnegative number: truncation, which on the
nonnegative rationals appearing here equals the floor. -/
def pyTrunc (q : ℚ) : Int := ⌊q⌋

/-! ### `_parse_time_param` (vexy_glob/__init__.py lines 75-130)

The function consults `time.time()` and `datetime.fromisoformat`; both are
external to the module and are supplied through `PyEnv`. -/

/-- External facilities used by `_parse_time_param`:
`now` is `time.time()`, `pyFloat` is the builtin `float(str)` (`none` means
`float` raises `ValueError`), and `isoTimestamp` is
`datetime.fromisoformat(s).timestamp()` (`none` means it raises). -/
structure PyEnv where
  now : ℚ
  pyFloat : String → Option ℚ
  isoTimestamp : String → Option ℚ

/-- The `Union[float, int, str, datetime]` argument of `_parse_time_param`;
a `datetime` is represented by its timestamp. -/
inductive TimeParam where
  | num (x : ℚ)
  | str (s : String)
  | dt (timestamp : ℚ)

/-- The `value.startswith("-")` branch of `_parse_time_param` (lines 97-113):
`amount = float(value[1:-1])`, `unit = value[-1].lower()`, then dispatch on
the unit.  `rest` is the input without its leading dash; `none` means the
raised `ValueError` was caught by the surrounding `except` (fall through to
ISO parsing).  `value[-1]` cannot raise here because the string starts with
a dash, hence `('-' :: rest).getLast?` is always `some`. -/
def relBranch (env : PyEnv) (rest : List Char) : Option ℚ :=
  match env.pyFloat (String.mk rest.dropLast) with
  | none => none
  | some amount =>
    match ('-' :: rest).getLast? with
    | none => none
    | some c =>
      let u := c.toLower
      if u = 's' then some (env.now - amount)
      else if u = 'm' then some (env.now - amount * 60)
      else if u = 'h' then some (env.now - amount * 3600)
      else if u = 'd' then some (env.now - amount * 86400)
      else none

/-- The string case of `_parse_time_param` (lines 95-128): try the relative
format, then the ISO format (padding a date-only string with `T00:00:00` and
replacing `Z` by an explicit UTC offset), else raise `ValueError`. -/
def parseTimeStr (env : PyEnv) (v : String) : Except String ℚ :=
  match (match v.data with
         | '-' :: rest => relBranch env rest
         | _ => none) with
  | some t => .ok t
  | none =>
    let v1 := if !(v.data.contains 'T') && (v.length == 10) then v ++ "T00:00:00" else v
    match env.isoTimestamp (v1.replace "Z" "+00:00") with
    | some t => .ok t
    | none =>
      .error ("Invalid time format: " ++ v ++ ". Use Unix timestamp, datetime object, ISO format (YYYY-MM-DD), or relative time (-1d, -2h, -30m, -45s)")

/-- `_parse_time_param` on its full argument type (lines 86-93 and the string
case); `none` is Python `None`.  The `TypeError` branch is unreachable
because `TimeParam` covers exactly the supported types. -/
def parseTimeParam (env : PyEnv) : Option TimeParam → Except String (Option ℚ)
  | none => .ok none
  | some (.num x) => .ok (some x)
  | some (.dt ts) => .ok (some ts)
  | some (.str v) => (parseTimeStr env v).map some

/-- Seconds per unit for the relative time formats `-Ns`, `-Nm`, `-Nh`, `-Nd`. -/
def unitSeconds : Char → ℚ
  | 's' => 1
  | 'm' => 60
  | 'h' => 3600
  | 'd' => 86400
  | _ => 0

/-! ### The `find` wrapper (vexy_glob/__init__.py lines 133-309) -/

/-- A `Union[str, List[str]]` argument. -/
inductive StrOrList where
  | str (s : String)
  | list (l : List String)

/-- The keyword arguments of `find` with their defaults (lines 133-158).
`root` is kept as a string: the wrapper converts a `Path` root to `str`
before any other use. -/
structure FindArgs where
  pattern : String := "*"
  root : String := "."
  content : Option String := none
  file_type : Option String := none
  extension : Option StrOrList := none
  exclude : Option StrOrList := none
  max_depth : Option Nat := none
  min_depth : Nat := 0
  min_size : Option Int := none
  max_size : Option Int := none
  mtime_after : Option TimeParam := none
  mtime_before : Option TimeParam := none
  atime_after : Option TimeParam := none
  atime_before : Option TimeParam := none
  ctime_after : Option TimeParam := none
  ctime_before : Option TimeParam := none
  hidden : Bool := false
  ignore_git : Bool := false
  custom_ignore_files : Option StrOrList := none
  case_sensitive : Option Bool := none
  follow_symlinks : Bool := false
  threads : Option Nat := none
  as_path : Bool := false
  as_list : Bool := false

/-- The keyword arguments accepted by the Rust `_vexy_glob.find` call
(lines 275-298), in the order and with the names used at the call site. -/
structure CoreFindCall where
  paths : List String
  glob : String
  file_type : Option String
  extension : Option (List String)
  exclude : Option (List String)
  max_depth : Option Nat
  min_size : Option Int
  max_size : Option Int
  mtime_after : Option ℚ
  mtime_before : Option ℚ
  atime_after : Option ℚ
  atime_before : Option ℚ
  ctime_after : Option ℚ
  ctime_before : Option ℚ
  hidden : Bool
  no_ignore : Bool
  custom_ignore_files : Option (List String)
  follow_symlinks : Bool
  case_sensitive_glob : Bool
  as_path_objects : Bool
  yield_results : Bool
  threads : Nat

/-- The keyword arguments of the Rust `_vexy_glob.search` call
(lines 246-272).  `case_sensitive_content` and `multiline` stand for the
source's `_case_sensitive_content` and `_multiline`. -/
structure CoreSearchCall where
  content_regex : String
  paths : List String
  glob : String
  file_type : Option String
  extension : Option (List String)
  exclude : Option (List String)
  max_depth : Option Nat
  min_size : Option Int
  max_size : Option Int
  mtime_after : Option ℚ
  mtime_before : Option ℚ
  atime_after : Option ℚ
  atime_before : Option ℚ
  ctime_after : Option ℚ
  ctime_before : Option ℚ
  hidden : Bool
  no_ignore : Bool
  custom_ignore_files : Option (List String)
  follow_symlinks : Bool
  case_sensitive_glob : Bool
  case_sensitive_content : Bool
  as_path_objects : Bool
  yield_results : Bool
  multiline : Bool
  threads : Nat

/-- The single invocation `find` makes of the Rust core: `_vexy_glob.search`
when `content` is given, `_vexy_glob.find` otherwise. -/
inductive CoreCall where
  | findCall (c : CoreFindCall)
  | searchCall (c : CoreSearchCall)

/-- `isinstance(x, str)` normalization applied to `extension`, `exclude` and
`custom_ignore_files` (lines 219-229): a plain string becomes a singleton
list. -/
def normStrOrList : Option StrOrList → Option (List String)
  | none => none
  | some (.str s) => some [s]
  | some (.list l) => some l

/-- The boolean the wrapper passes as `case_sensitive_glob` (lines 266 and
294): Python `case_sensitive is not False`. -/
def caseSensitiveGlobFlag (cs : Option Bool) : Bool := cs != some false

/-- Marshalling performed by `find` before the core call (lines 215-298):
string arguments become lists, the six time parameters go through
`_parse_time_param` (whose `ValueError` propagates out of `find`), and the
core keyword arguments are assembled. -/
def findCoreCall (env : PyEnv) (a : FindArgs) : Except String CoreCall := do
  let ext := normStrOrList a.extension
  let exc := normStrOrList a.exclude
  let cif := normStrOrList a.custom_ignore_files
  let mta ← parseTimeParam env a.mtime_after
  let mtb ← parseTimeParam env a.mtime_before
  let ata ← parseTimeParam env a.atime_after
  let atb ← parseTimeParam env a.atime_before
  let cta ← parseTimeParam env a.ctime_after
  let ctb ← parseTimeParam env a.ctime_before
  match a.content with
  | some cr =>
    pure (.searchCall
      { content_regex := cr
        paths := [a.root]
        glob := a.pattern
        file_type := a.file_type
        extension := ext
        exclude := exc
        max_depth := a.max_depth
        min_size := a.min_size
        max_size := a.max_size
        mtime_after := mta
        mtime_before := mtb
        atime_after := ata
        atime_before := atb
        ctime_after := cta
        ctime_before := ctb
        hidden := a.hidden
        no_ignore := a.ignore_git
        custom_ignore_files := cif
        follow_symlinks := a.follow_symlinks
        case_sensitive_glob := caseSensitiveGlobFlag a.case_sensitive
        case_sensitive_content := caseSensitiveGlobFlag a.case_sensitive
        as_path_objects := a.as_path
        yield_results := !a.as_list
        multiline := false
        threads := a.threads.getD 0 })
  | none =>
    pure (.findCall
      { paths := [a.root]
        glob := a.pattern
        file_type := a.file_type
        extension := ext
        exclude := exc
        max_depth := a.max_depth
        min_size := a.min_size
        max_size := a.max_size
        mtime_after := mta
        mtime_before := mtb
        atime_after := ata
        atime_before := atb
        ctime_after := cta
        ctime_before := ctb
        hidden := a.hidden
        no_ignore := a.ignore_git
        custom_ignore_files := cif
        follow_symlinks := a.follow_symlinks
        case_sensitive_glob := caseSensitiveGlobFlag a.case_sensitive
        as_path_objects := a.as_path
        yield_results := !a.as_list
        threads := a.threads.getD 0 })

/-- An exception escaping the Rust core, as seen by the wrapper: only its
`str(e)` message is consulted. -/
structure CoreErr where
  msg : String

/-- The Python exceptions `find` can raise.  `patternError m p` is
`PatternError(m, p)`: it stores the offending pattern in `self.pattern`
and the reason in the message. -/
inductive PyExc where
  | patternError (message : String) (pattern : String)
  | searchError (message : String)
  | vexyGlobError (message : String)
  | valueError (message : String)

/-- The `except` clause of `find` (lines 299-307): classify a core error by
substring tests on the lowercased message. -/
def classifyError (e : CoreErr) (pattern : String) : PyExc :=
  let m := lowerStr e.msg
  if strContains m "invalid" && (strContains m "pattern" || strContains m "glob") then
    .patternError e.msg pattern
  else if strContains m "permission" || strContains m "i/o error" then
    .searchError e.msg
  else
    .vexyGlobError e.msg

/-- `find` itself, over an abstract core `core` (the Rust extension's
`find`/`search` entry point, returning either a stream of results or an
error raised at the entry point).  A `.error` return models an exception
raised before any result is produced. -/
def findRun {ρ : Type} (env : PyEnv) (core : CoreCall → Except CoreErr ρ)
    (a : FindArgs) : Except PyExc ρ :=
  match findCoreCall env a with
  | .error m => .error (.valueError m)
  | .ok call =>
    match core call with
    | .ok r => .ok r
    | .error e => .error (classifyError e a.pattern)

/-- `search` (lines 380-398): a thin delegate to
`find(pattern=pattern, root=root, content=content_regex, **kwargs)`. -/
def searchRun {ρ : Type} (env : PyEnv) (core : CoreCall → Except CoreErr ρ)
    (content_regex pat rootDir : String) (kwargs : FindArgs) : Except PyExc ρ :=
  findRun env core { kwargs with pattern := pat, root := rootDir, content := some content_regex }

/-- The keyword parameters of `find`'s Python signature (lines 133-158). -/
def findKeywordParams : List String :=
  ["pattern", "root", "content", "file_type", "extension", "exclude",
   "max_depth", "min_depth", "min_size", "max_size",
   "mtime_after", "mtime_before", "atime_after", "atime_before",
   "ctime_after", "ctime_before", "hidden", "ignore_git",
   "custom_ignore_files", "case_sensitive", "follow_symlinks",
   "threads", "as_path", "as_list"]

/-! ### `glob` and `iglob` (vexy_glob/__init__.py lines 312-377) -/

/-- The arguments of `glob`/`iglob`. -/
structure GlobArgs where
  pattern : String
  recursive : Bool := false
  root_dir : Option String := none
  include_hidden : Bool := false

/-- Python `root_dir or "."`: `None` and the empty string are falsy. -/
def pyOrDot : Option String → String
  | none => "."
  | some "" => "."
  | some s => s

/-- The `find` call `glob` makes (lines 331-343): the pattern is prefixed
with `**/` when `recursive` is set and the pattern has no `**`, and the
results are requested as a list of strings. -/
def globFindArgs (g : GlobArgs) : FindArgs :=
  let pat := if g.recursive && !strContains g.pattern "**" then "**/" ++ g.pattern else g.pattern
  { pattern := pat
    root := pyOrDot g.root_dir
    hidden := g.include_hidden
    as_list := true
    as_path := false }

/-- The `find` call `iglob` makes (lines 365-377): same pattern handling as
`glob`, but streaming results. -/
def iglobFindArgs (g : GlobArgs) : FindArgs :=
  let pat := if g.recursive && !strContains g.pattern "**" then "**/" ++ g.pattern else g.pattern
  { pattern := pat
    root := pyOrDot g.root_dir
    hidden := g.include_hidden
    as_list := false
    as_path := false }

/-- `glob` over an abstract core. -/
def globRun {ρ : Type} (env : PyEnv) (core : CoreCall → Except CoreErr ρ)
    (g : GlobArgs) : Except PyExc ρ :=
  findRun env core (globFindArgs g)

/-- `iglob` over an abstract core. -/
def iglobRun {ρ : Type} (env : PyEnv) (core : CoreCall → Except CoreErr ρ)
    (g : GlobArgs) : Except PyExc ρ :=
  findRun env core (iglobFindArgs g)

/-! ### The CLI (`vexy_glob/__main__.py`) -/

/-- Value of a digit string, most significant first. -/
def digitsVal (l : List Char) : Nat :=
  l.foldl (fun a c => 10 * a + (c.toNat - 48)) 0

/-- The rational denoted by `float` applied to a string of the shape
`digits` or `digits.digits` (the only shapes the size regex admits). -/
def decimalVal (ip fp : List Char) : ℚ :=
  (digitsVal ip : ℚ) + (digitsVal fp : ℚ) / (10 : ℚ) ^ fp.length

/-- The unit letters of the size regex character class `[kmgt]`. -/
def unitChars : List Char := ['k', 'm', 'g', 't']

/-- The `multipliers` dictionary of `_parse_size` (lines 44-50), keyed by the
optional unit captured by the regex. -/
def multiplier : Option Char → ℚ
  | none => 1
  | some c =>
    if c = 'k' then 1024
    else if c = 'm' then 1024 ^ 2
    else if c = 'g' then 1024 ^ 3
    else if c = 't' then 1024 ^ 4
    else 1

/-- The trailing part of the size regex, `([kmgt]?)b?$`, applied after the
whitespace has been dropped: returns the captured unit if the rest of the
input is consumed, `none` if the regex fails to match. -/
def unitPhase (r3 : List Char) : Option (Option Char) :=
  let p : Option Char × List Char :=
    match r3 with
    | c :: rest => if unitChars.contains c then (some c, rest) else (none, r3)
    | [] => (none, [])
  let r5 : List Char :=
    match p.2 with
    | c :: rest => if c = 'b' then rest else p.2
    | [] => p.2
  if r5 = [] then some p.1 else none

/-- The optional fractional group `(?:\.\d+)?` of the size regex, applied to
what follows the integer digits `ip`: a dot followed by at least one digit
extends the captured number, anything else leaves the input untouched
(greedy matching with no viable backtrack, as for a regex). -/
def fracPhase (ip r1 : List Char) : ℚ × List Char :=
  match r1 with
  | c :: rest =>
    if c = '.' then
      let fp := rest.takeWhile Char.isDigit
      if fp = [] then (decimalVal ip [], r1)
      else (decimalVal ip fp, rest.dropWhile Char.isDigit)
    else (decimalVal ip [], r1)
  | [] => (decimalVal ip [], r1)

/-- The regex match `^(\d+(?:\.\d+)?)\s*([kmgt]?)b?$` of `_parse_size`
(line 35), as a deterministic parser on the normalized character list; it is
equivalent to the regex because no failing alternative of the regex has a
successful backtrack (a shorter `\d+` or a skipped fractional group always
leaves a digit or a dot that nothing later can consume).  Returns the
numeric capture as a rational together with the unit capture. -/
def matchSizeRegex (l : List Char) : Option (ℚ × Option Char) :=
  let ip := l.takeWhile Char.isDigit
  let r1 := l.dropWhile Char.isDigit
  if ip = [] then none
  else
    let nr := fracPhase ip r1
    match unitPhase (nr.2.dropWhile isPySpace) with
    | some u => some (nr.1, u)
    | none => none

/-- `VexyGlobCLI._parse_size` (lines 27-52).  A falsy (empty) argument
returns 0 bytes; otherwise the input is lowercased and stripped, matched
against the size regex, and the captured number is scaled by the unit's
multiplier and truncated by `int()`.  A failed match raises `ValueError`
(the quotes around the examples in the real message are elided). -/
def pyParseSize (s : String) : Except String Int :=
  if s = "" then .ok 0
  else
    let t := pyStrip (s.data.map Char.toLower)
    match matchSizeRegex t with
    | none =>
      .error ("Invalid size format: " ++ String.mk t ++ ". Use formats like 10k, 1M, 500G")
    | some nu => .ok (pyTrunc (nu.1 * multiplier nu.2))

/-- `self._parse_size(x) if x else None` (lines 128-129 and 234-235): `None`
and the empty string are falsy, so `_parse_size` is only consulted for a
non-empty string. -/
def parseSizeOpt : Option String → Except String (Option Int)
  | none => .ok none
  | some s => if s = "" then .ok none else (pyParseSize s).map some

/-- One content-search result dictionary, with the fields the CLI reads. -/
structure ContentResult where
  path : String
  line_number : Nat
  line_text : String

/-- `VexyGlobCLI._format_search_result` with `no_color=True` (lines 54-61):
`path:line_number:line_text`, the line text right-stripped. -/
def formatSearchResult (r : ContentResult) : String :=
  r.path ++ ":" ++ toString r.line_number ++ ":" ++ pyRstrip r.line_text

/-- The rich markup line the CLI prints for a colored search result
(lines 276-283). -/
def coloredSearchLine (r : ContentResult) : String :=
  "[cyan]" ++ r.path ++ "[/cyan]:[green]" ++ toString r.line_number ++ "[/green]:" ++ pyRstrip r.line_text

/-- What happens inside the outer `try` of `VexyGlobCLI.find` once the size
arguments have parsed: the underlying `vexy_glob.find` streams `results`
and printing may hit a broken pipe after `k` lines (`some k`); or a
`KeyboardInterrupt` arrives; or some other exception `e` escapes. -/
inductive CliFindEvent where
  | success (results : List String) (pipeBreakAt : Option Nat)
  | interrupted
  | pyError (msg : String)

/-- The analogous events for `VexyGlobCLI.search`. -/
inductive CliSearchEvent where
  | success (results : List ContentResult) (pipeBreakAt : Option Nat)
  | interrupted
  | pyError (msg : String)

/-- The process-observable outcome of one CLI invocation: the exit code, the
lines written to stderr, and the result lines written to stdout. -/
structure CliExit where
  code : Nat
  stderrLines : List String
  stdoutLines : List String
deriving DecidableEq

/-- `VexyGlobCLI.find` (lines 74-175).  Size strings are parsed first (a
`ValueError` there is caught by `except Exception` and reported as
`Error: ...` with exit code 1).  A `BrokenPipeError` while printing is
caught by the inner handler (lines 166-169), which closes stderr and exits
with code 0 — the `SystemExit` it raises is not an `Exception`, so the
outer handlers do not intercept it.  A `KeyboardInterrupt` exits with
code 1 (lines 171-172).  Any other exception prints `Error: ...` to stderr
and exits with code 1 (lines 173-175).  Normal completion returns, and the
process exits with code 0. -/
def cliFindRun (min_size max_size : Option String) (ev : CliFindEvent) : CliExit :=
  match parseSizeOpt min_size with
  | .error m => ⟨1, ["Error: " ++ m], []⟩
  | .ok _ =>
    match parseSizeOpt max_size with
    | .error m => ⟨1, ["Error: " ++ m], []⟩
    | .ok _ =>
      match ev with
      | .success rs none => ⟨0, [], rs⟩
      | .success rs (some k) => ⟨0, [], rs.take k⟩
      | .interrupted => ⟨1, [], []⟩
      | .pyError m => ⟨1, ["Error: " ++ m], []⟩

/-- `VexyGlobCLI.search` (lines 177-293): identical control flow to
`cliFindRun`; each result is printed either through
`_format_search_result` (`no_color`) or as a rich markup line. -/
def cliSearchRun (min_size max_size : Option String) (no_color : Bool)
    (ev : CliSearchEvent) : CliExit :=
  match parseSizeOpt min_size with
  | .error m => ⟨1, ["Error: " ++ m], []⟩
  | .ok _ =>
    match parseSizeOpt max_size with
    | .error m => ⟨1, ["Error: " ++ m], []⟩
    | .ok _ =>
      match ev with
      | .success rs none =>
        ⟨0, [], rs.map (fun r => if no_color then formatSearchResult r else coloredSearchLine r)⟩
      | .success rs (some k) =>
        ⟨0, [], (rs.map (fun r => if no_color then formatSearchResult r else coloredSearchLine r)).take k⟩
      | .interrupted => ⟨1, [], []⟩
      | .pyError m => ⟨1, ["Error: " ++ m], []⟩

/-! ### A spec-side description of well-formed size strings

Used to state what `_parse_size` accepts without referring to the parser
itself: a well-formed (already lowercased and stripped) size string is
digits, an optional dot-separated fractional part, optional internal
whitespace, an optional unit letter and an optional trailing `b`. -/

/-- The characters contributed by an optional unit letter. -/
def optUnitChars : Option Char → List Char
  | none => []
  | some c => [c]

/-- Assembles a well-formed size string from its components: integer digits
`ip`, fractional digits `fp` (empty means no dot), internal whitespace `sp`,
optional unit `u` and optional trailing `b`. -/
def goodSizeForm (ip fp sp : List Char) (u : Option Char) (b : Bool) : List Char :=
  ip ++ (if fp = [] then [] else '.' :: fp) ++ sp ++ optUnitChars u ++ (if b then ['b'] else [])

/-- Side conditions making `goodSizeForm` components well-formed. -/
abbrev SizeComponentsOk (ip fp sp : List Char) (u : Option Char) : Prop :=
  ip ≠ [] ∧ (∀ c ∈ ip, c.isDigit = true) ∧ (∀ c ∈ fp, c.isDigit = true) ∧
    (∀ c ∈ sp, isPySpace c = true) ∧
    (∀ c, u = some c → c ∈ unitChars)

/-- The head of the list, if any, fails the predicate `p`. -/
def headNot (p : Char → Bool) : List Char → Prop
  | [] => True
  | c :: _ => p c = false

/-! ### List and character lemmas for the size-string analysis -/

theorem headNot_append {p : Char → Bool} {l₁ l₂ : List Char}
    (h1 : headNot p l₁) (h2 : headNot p l₂) : headNot p (l₁ ++ l₂) := by
  cases l₁ with
  | nil => simpa using h2
  | cons c t => simpa [headNot] using h1

theorem takeWhile_of_headNot {p : Char → Bool} {l : List Char} (h : headNot p l) :
    l.takeWhile p = [] := by
  cases l with
  | nil => rfl
  | cons c t =>
    simp only [headNot] at h
    simp [List.takeWhile_cons, h]

theorem dropWhile_of_headNot {p : Char → Bool} {l : List Char} (h : headNot p l) :
    l.dropWhile p = l := by
  cases l with
  | nil => rfl
  | cons c t =>
    simp only [headNot] at h
    simp [List.dropWhile_cons, h]

theorem takeWhile_append_all {p : Char → Bool} {l₁ : List Char}
    (h : ∀ c ∈ l₁, p c = true) (l₂ : List Char) :
    (l₁ ++ l₂).takeWhile p = l₁ ++ l₂.takeWhile p := by
  induction l₁ with
  | nil => simp
  | cons c t ih => simp_all [List.takeWhile_cons]

theorem dropWhile_append_all {p : Char → Bool} {l₁ : List Char}
    (h : ∀ c ∈ l₁, p c = true) (l₂ : List Char) :
    (l₁ ++ l₂).dropWhile p = l₂.dropWhile p := by
  induction l₁ with
  | nil => simp
  | cons c t ih => simp_all [List.dropWhile_cons]

theorem spanSplit {p : Char → Bool} {l₁ l₂ : List Char}
    (h1 : ∀ c ∈ l₁, p c = true) (h2 : headNot p l₂) :
    (l₁ ++ l₂).takeWhile p = l₁ ∧ (l₁ ++ l₂).dropWhile p = l₂ := by
  constructor
  · rw [takeWhile_append_all h1, takeWhile_of_headNot h2, List.append_nil]
  · rw [dropWhile_append_all h1, dropWhile_of_headNot h2]

theorem isPySpace_cases {c : Char} (h : isPySpace c = true) :
    c = ' ' ∨ c = '\t' ∨ c = '\n' ∨ c = '\r' ∨ c = '\x0b' ∨ c = '\x0c' := by
  simpa [isPySpace, or_assoc] using h

theorem isPySpace_not_digit {c : Char} (h : isPySpace c = true) : c.isDigit = false := by
  rcases isPySpace_cases h with h | h | h | h | h | h <;> subst h <;> rfl

theorem isPySpace_not_dot {c : Char} (h : isPySpace c = true) : (c = '.') = False := by
  rcases isPySpace_cases h with h | h | h | h | h | h <;> subst h <;> simp

theorem unit_mem_cases {c : Char} (h : c ∈ unitChars) :
    c = 'k' ∨ c = 'm' ∨ c = 'g' ∨ c = 't' := by
  simpa [unitChars] using h

theorem unit_not_digit {c : Char} (h : c ∈ unitChars) : c.isDigit = false := by
  rcases unit_mem_cases h with h | h | h | h <;> subst h <;> rfl

theorem unit_not_space {c : Char} (h : c ∈ unitChars) : isPySpace c = false := by
  rcases unit_mem_cases h with h | h | h | h <;> subst h <;> rfl

theorem unit_not_dot {c : Char} (h : c ∈ unitChars) : (c = '.') = False := by
  rcases unit_mem_cases h with h | h | h | h <;> subst h <;> simp

theorem headNot_space_digit {sp : List Char} (h : ∀ c ∈ sp, isPySpace c = true) :
    headNot Char.isDigit sp := by
  cases sp with
  | nil => trivial
  | cons c t => exact isPySpace_not_digit (h c (by simp))

theorem headNot_space_dot {sp : List Char} (h : ∀ c ∈ sp, isPySpace c = true) :
    headNot (fun c => decide (c = '.')) sp := by
  cases sp with
  | nil => trivial
  | cons c t =>
    show decide (c = '.') = false
    simp [isPySpace_not_dot (h c (by simp))]

theorem headNot_unitTail_digit {u : Option Char} (b : Bool)
    (hu : ∀ c, u = some c → c ∈ unitChars) :
    headNot Char.isDigit (optUnitChars u ++ (if b then ['b'] else [])) := by
  cases u with
  | none => cases b with
    | false => trivial
    | true => exact rfl
  | some c => exact unit_not_digit (hu c rfl)

theorem headNot_unitTail_space {u : Option Char} (b : Bool)
    (hu : ∀ c, u = some c → c ∈ unitChars) :
    headNot isPySpace (optUnitChars u ++ (if b then ['b'] else [])) := by
  cases u with
  | none => cases b with
    | false => trivial
    | true => exact rfl
  | some c => exact unit_not_space (hu c rfl)

theorem headNot_unitTail_dot {u : Option Char} (b : Bool)
    (hu : ∀ c, u = some c → c ∈ unitChars) :
    headNot (fun c => decide (c = '.')) (optUnitChars u ++ (if b then ['b'] else [])) := by
  cases u with
  | none => cases b with
    | false => trivial
    | true => exact rfl
  | some c =>
    show decide (c = '.') = false
    simp [unit_not_dot (hu c rfl)]

/-! ### Behaviour of the size-regex phases -/

theorem unitPhase_good (u : Option Char) (b : Bool)
    (hu : ∀ c, u = some c → c ∈ unitChars) :
    unitPhase (optUnitChars u ++ (if b then ['b'] else [])) = some u := by
  cases u with
  | none => cases b <;> rfl
  | some c =>
    rcases unit_mem_cases (hu c rfl) with h | h | h | h <;> subst h <;> cases b <;> rfl

theorem unitPhase_inv {r3 : List Char} {u : Option Char} (h : unitPhase r3 = some u) :
    (∀ c, u = some c → c ∈ unitChars)
      ∧ ∃ b : Bool, r3 = optUnitChars u ++ (if b then ['b'] else []) := by
  cases r3 with
  | nil =>
    have hu : none = u := by simpa [unitPhase] using h
    subst hu
    exact ⟨fun c hc => Option.noConfusion hc, false, rfl⟩
  | cons c rest =>
    by_cases hcm : c ∈ unitChars
    · cases rest with
      | nil =>
        have hu : some c = u := by simpa [unitPhase, hcm] using h
        subst hu
        exact ⟨fun d hd => by cases hd; exact hcm, false, rfl⟩
      | cons c2 rest2 =>
        by_cases hb : c2 = 'b'
        · subst hb
          have h5 : rest2 = [] := by
            by_contra hne
            simp [unitPhase, hcm, hne] at h
          subst h5
          have hu : some c = u := by simpa [unitPhase, hcm] using h
          subst hu
          exact ⟨fun d hd => by cases hd; exact hcm, true, rfl⟩
        · exfalso
          simp [unitPhase, hcm, hb] at h
    · by_cases hb : c = 'b'
      · subst hb
        have h5 : rest = [] := by
          by_contra hne
          simp [unitPhase, hcm, hne] at h
        subst h5
        have hu : none = u := by simpa [unitPhase, hcm] using h
        subst hu
        exact ⟨fun d hd => Option.noConfusion hd, true, rfl⟩
      · exfalso
        simp [unitPhase, hcm, hb] at h

theorem fracPhase_dot {ip fp tail : List Char} (hfp : fp ≠ [])
    (hfpd : ∀ c ∈ fp, c.isDigit = true) (htail : headNot Char.isDigit tail) :
    fracPhase ip ('.' :: (fp ++ tail)) = (decimalVal ip fp, tail) := by
  obtain ⟨ht, hd⟩ := spanSplit hfpd htail
  simp [fracPhase, ht, hd, hfp]

theorem fracPhase_nodot {ip r1 : List Char}
    (h : headNot (fun c => decide (c = '.')) r1) :
    fracPhase ip r1 = (decimalVal ip [], r1) := by
  cases r1 with
  | nil => rfl
  | cons c t =>
    have hc : c ≠ '.' := by simpa [headNot] using h
    simp [fracPhase, hc]

theorem fracPhase_inv {ip r1 : List Char} {q : ℚ} {r2 : List Char}
    (h : fracPhase ip r1 = (q, r2)) :
    (q = decimalVal ip [] ∧ r2 = r1)
      ∨ ∃ fp, fp ≠ [] ∧ (∀ c ∈ fp, c.isDigit = true)
          ∧ r1 = '.' :: (fp ++ r2) ∧ q = decimalVal ip fp := by
  cases r1 with
  | nil =>
    left
    simpa [fracPhase, eq_comm, and_comm] using h
  | cons c rest =>
    by_cases hc : c = '.'
    · subst hc
      by_cases hfpe : rest.takeWhile Char.isDigit = []
      · left
        simpa [fracPhase, hfpe, eq_comm, and_comm] using h
      · right
        have h2 : q = decimalVal ip (rest.takeWhile Char.isDigit)
            ∧ r2 = rest.dropWhile Char.isDigit := by
          simpa [fracPhase, hfpe, eq_comm, and_comm] using h
        refine ⟨rest.takeWhile Char.isDigit, hfpe,
          fun d hd => List.mem_takeWhile_imp hd, ?_, h2.1⟩
        rw [h2.2]
        simp [List.takeWhile_append_dropWhile]
    · left
      simpa [fracPhase, hc, eq_comm, and_comm] using h

theorem matchSizeRegex_good {ip fp sp : List Char} {u : Option Char} (b : Bool)
    (h : SizeComponentsOk ip fp sp u) :
    matchSizeRegex (goodSizeForm ip fp sp u b) = some (decimalVal ip fp, u) := by
  obtain ⟨hip, hipd, hfpd, hspd, hu⟩ := h
  set T := optUnitChars u ++ (if b then ['b'] else []) with hTdef
  have hTnd : headNot Char.isDigit T := headNot_unitTail_digit b hu
  have hTns : headNot isPySpace T := headNot_unitTail_space b hu
  have hTndot : headNot (fun c => decide (c = '.')) T := headNot_unitTail_dot b hu
  have hspT_nd : headNot Char.isDigit (sp ++ T) :=
    headNot_append (headNot_space_digit hspd) hTnd
  have hsp_drop : (sp ++ T).dropWhile isPySpace = T := (spanSplit hspd hTns).2
  have hunit : unitPhase T = some u := unitPhase_good u b hu
  by_cases hfpe : fp = []
  · subst hfpe
    have hform : goodSizeForm ip [] sp u b = ip ++ (sp ++ T) := by
      simp [goodSizeForm, hTdef, List.append_assoc]
    have hspan := spanSplit hipd hspT_nd
    have hfrac : fracPhase ip (sp ++ T) = (decimalVal ip [], sp ++ T) :=
      fracPhase_nodot (headNot_append (headNot_space_dot hspd) hTndot)
    simp [matchSizeRegex, hform, hspan.1, hspan.2, hip, hfrac, hsp_drop, hunit]
  · have hform : goodSizeForm ip fp sp u b = ip ++ ('.' :: (fp ++ (sp ++ T))) := by
      simp [goodSizeForm, hTdef, hfpe, List.append_assoc]
    have hdot_head : headNot Char.isDigit ('.' :: (fp ++ (sp ++ T))) := rfl
    have hspan := spanSplit hipd hdot_head
    have hfrac : fracPhase ip ('.' :: (fp ++ (sp ++ T))) = (decimalVal ip fp, sp ++ T) :=
      fracPhase_dot hfpe hfpd hspT_nd
    simp [matchSizeRegex, hform, hspan.1, hspan.2, hip, hfrac, hsp_drop, hunit]

theorem matchSizeRegex_inv {l : List Char} {q : ℚ} {u : Option Char}
    (h : matchSizeRegex l = some (q, u)) :
    ∃ ip fp sp b, SizeComponentsOk ip fp sp u
      ∧ l = goodSizeForm ip fp sp u b ∧ q = decimalVal ip fp := by
  by_cases hip : l.takeWhile Char.isDigit = []
  · simp [matchSizeRegex, hip] at h
  · rcases hfrac : fracPhase (l.takeWhile Char.isDigit) (l.dropWhile Char.isDigit)
      with ⟨q2, r2⟩
    rcases hup : unitPhase (r2.dropWhile isPySpace) with _ | u2
    · exfalso
      simp [matchSizeRegex, hip, hfrac, hup] at h
    · have hqu : q2 = q ∧ u2 = u := by
        simpa [matchSizeRegex, hip, hfrac, hup] using h
      obtain ⟨rfl, rfl⟩ := hqu
      obtain ⟨huok, b, hr3⟩ := unitPhase_inv hup
      have hipd : ∀ c ∈ l.takeWhile Char.isDigit, c.isDigit = true :=
        fun c hc => List.mem_takeWhile_imp hc
      have hspd : ∀ c ∈ r2.takeWhile isPySpace, isPySpace c = true :=
        fun c hc => List.mem_takeWhile_imp hc
      have hr2 : r2 = r2.takeWhile isPySpace ++ (optUnitChars u2 ++ (if b then ['b'] else [])) := by
        rw [← hr3]
        exact (List.takeWhile_append_dropWhile _ _).symm
      rcases fracPhase_inv hfrac with ⟨hq2, hr21⟩ | ⟨fp, hfpe, hfpd, hr21, hq2⟩
      · refine ⟨l.takeWhile Char.isDigit, [], r2.takeWhile isPySpace, b,
          ⟨hip, hipd, by simp, hspd, huok⟩, ?_, hq2⟩
        calc l = l.takeWhile Char.isDigit ++ l.dropWhile Char.isDigit :=
              (List.takeWhile_append_dropWhile _ _).symm
          _ = l.takeWhile Char.isDigit ++ r2 := by rw [hr21]
          _ = goodSizeForm (l.takeWhile Char.isDigit) [] (r2.takeWhile isPySpace) u2 b := by
              conv_lhs => rw [hr2]
              simp [goodSizeForm, List.append_assoc]
      · refine ⟨l.takeWhile Char.isDigit, fp, r2.takeWhile isPySpace, b,
          ⟨hip, hipd, hfpd, hspd, huok⟩, ?_, hq2⟩
        calc l = l.takeWhile Char.isDigit ++ l.dropWhile Char.isDigit :=
              (List.takeWhile_append_dropWhile _ _).symm
          _ = l.takeWhile Char.isDigit ++ ('.' :: (fp ++ r2)) := by rw [hr21]
          _ = goodSizeForm (l.takeWhile Char.isDigit) fp (r2.takeWhile isPySpace) u2 b := by
              conv_lhs => rw [hr2]
              simp [goodSizeForm, hfpe, List.append_assoc]

/-! ### Claims -/

/-- C1: `find` accepts `min_depth` but never forwards it to the core, so the
core call — and with it the result stream — is identical for any two values
of `min_depth`.  Entries shallower than `min_depth` are therefore *not*
rejected, contradicting the claim (and `find`'s own docstring). -/
theorem find_ignores_min_depth {ρ : Type} (env : PyEnv)
    (core : CoreCall → Except CoreErr ρ) (a : FindArgs) (d₁ d₂ : Nat) :
    findRun env core { a with min_depth := d₁ } = findRun env core { a with min_depth := d₂ } := rfl

/-- C2: the wrapper forwards `case_sensitive_glob = (case_sensitive is not
False)`, so a smart-case request (`case_sensitive=None`) produces exactly
the same core call — hence the same results — as `case_sensitive=True`,
for every pattern, lowercase or not.  The pattern-dependent half of the
claim (`None` ≡ `False` on all-lowercase patterns) cannot hold whenever
`True` and `False` differ, which its own test-suite requires. -/
theorem find_smart_case_collapsed {ρ : Type} (env : PyEnv)
    (core : CoreCall → Except CoreErr ρ) (a : FindArgs) :
    findRun env core { a with case_sensitive := none }
        = findRun env core { a with case_sensitive := some true }
      ∧ caseSensitiveGlobFlag none = true
      ∧ caseSensitiveGlobFlag (some true) = true
      ∧ caseSensitiveGlobFlag (some false) = false :=
  ⟨rfl, rfl, rfl, rfl⟩

/-- C3: `sort` is not among the keyword parameters of `find`'s signature,
so `find(..., sort="name")` raises `TypeError` instead of returning sorted
results. -/
theorem find_has_no_sort_keyword : "sort" ∉ findKeywordParams := by decide

/-- C9: passing a plain string for `extension`, `exclude` or
`custom_ignore_files` yields the same core call, and hence the same
results, as passing the singleton list containing that string. -/
theorem find_normalizes_string_args {ρ : Type} (env : PyEnv)
    (core : CoreCall → Except CoreErr ρ) (a : FindArgs) (s : String) :
    findRun env core { a with extension := some (.str s) }
        = findRun env core { a with extension := some (.list [s]) }
      ∧ findRun env core { a with exclude := some (.str s) }
        = findRun env core { a with exclude := some (.list [s]) }
      ∧ findRun env core { a with custom_ignore_files := some (.str s) }
        = findRun env core { a with custom_ignore_files := some (.list [s]) } :=
  ⟨rfl, rfl, rfl⟩

/-- C4: when the core rejects a pattern at the entry point (modelled from
the spec: an invalid glob or regex fails before any traversal work, with a
message naming the invalid pattern/glob), `find` raises `PatternError`
carrying the offending pattern and the reason, and returns no results; and
`search` is the same entry point with `content` set. -/
theorem find_invalid_pattern_raises {ρ : Type} (env : PyEnv)
    (core : CoreCall → Except CoreErr ρ) (a : FindArgs) (call : CoreCall) (e : CoreErr)
    (hcall : findCoreCall env a = .ok call)
    (hcore : core call = .error e)
    (h1 : strContains (lowerStr e.msg) "invalid" = true)
    (h2 : strContains (lowerStr e.msg) "pattern" = true ∨ strContains (lowerStr e.msg) "glob" = true) :
    findRun env core a = .error (.patternError e.msg a.pattern)
      ∧ ∀ cr pat rootDir kwargs,
          searchRun env core cr pat rootDir kwargs
            = findRun env core { kwargs with pattern := pat, root := rootDir, content := some cr } := by
  refine ⟨?_, fun cr pat rootDir kwargs => rfl⟩
  simp only [findRun, hcall, hcore]
  unfold classifyError
  rcases h2 with h2 | h2 <;> simp [h1, h2]

/-- Witness for C4 at a concrete request: the default arguments with a core
that rejects the glob. -/
theorem find_invalid_pattern_raises_witness :
    findRun (ρ := Unit) ⟨0, fun _ => none, fun _ => none⟩
        (fun _ => .error ⟨"Invalid glob pattern"⟩) {}
      = .error (.patternError "Invalid glob pattern" "*") :=
  (find_invalid_pattern_raises ⟨0, fun _ => none, fun _ => none⟩
    (fun _ => .error ⟨"Invalid glob pattern"⟩) {}
    (.findCall
      { paths := ["."], glob := "*", file_type := none, extension := none,
        exclude := none, max_depth := none, min_size := none, max_size := none,
        mtime_after := none, mtime_before := none, atime_after := none,
        atime_before := none, ctime_after := none, ctime_before := none,
        hidden := false, no_ignore := false, custom_ignore_files := none,
        follow_symlinks := false, case_sensitive_glob := true,
        as_path_objects := false, yield_results := true, threads := 0 })
    ⟨"Invalid glob pattern"⟩ rfl rfl (by decide) (Or.inr (by decide))).1

/-- C5: a broken pipe while the CLI prints results leads to a clean exit:
code 0 and nothing on stderr, for `find` and for `search`. -/
theorem cli_broken_pipe_clean_exit (ms Ms : Option String) (vm vM : Option Int)
    (rs : List String) (rcs : List ContentResult) (k : Nat) (nc : Bool)
    (hm : parseSizeOpt ms = .ok vm) (hM : parseSizeOpt Ms = .ok vM) :
    cliFindRun ms Ms (.success rs (some k)) = ⟨0, [], rs.take k⟩
      ∧ cliSearchRun ms Ms nc (.success rcs (some k))
        = ⟨0, [], (rcs.map (fun r => if nc then formatSearchResult r else coloredSearchLine r)).take k⟩ := by
  unfold cliFindRun cliSearchRun
  rw [hm, hM]
  exact ⟨rfl, rfl⟩

/-- Witness for C5: a pipe that breaks after one printed result. -/
theorem cli_broken_pipe_clean_exit_witness :
    cliFindRun none none (.success ["a", "b"] (some 1)) = ⟨0, [], ["a"]⟩ :=
  (cli_broken_pipe_clean_exit none none none none ["a", "b"] [] 1 true rfl rfl).1

/-- C6 counterexample: an interrupted CLI `find` exits with code 1, not the
claimed 130. -/
theorem cli_interrupt_not_exit_130 :
    (cliFindRun none none CliFindEvent.interrupted).code = 1
      ∧ (cliFindRun none none CliFindEvent.interrupted).code ≠ 130 := by
  exact ⟨rfl, by decide⟩

/-- C6 as amended: an interrupted invocation exits with code 1 — the same
code the CLI uses for usage or pattern errors — while 0 still means normal
completion (with or without matches) and errors report `Error: ...` on
stderr with exit code 1. -/
theorem cli_exit_codes (ms Ms : Option String) (rs : List String) (m : String) :
    (cliFindRun ms Ms .interrupted).code = 1
      ∧ (cliSearchRun ms Ms false .interrupted).code = 1
      ∧ cliFindRun none none (.success rs none) = ⟨0, [], rs⟩
      ∧ cliFindRun none none (.pyError m) = ⟨1, ["Error: " ++ m], []⟩ := by
  refine ⟨?_, ?_, rfl, rfl⟩ <;>
    cases hm : parseSizeOpt ms <;> cases hM : parseSizeOpt Ms <;>
      simp [cliFindRun, cliSearchRun, hm, hM]

/-- C7: a relative time string `-N` followed by a unit `s`/`m`/`h`/`d`
parses to the current Unix time minus `N` scaled by 1, 60, 3600 or 86400
seconds; `N` is whatever `float` accepts for the digits part. -/
theorem parse_time_relative_offset (env : PyEnv) (numStr : String) (N : ℚ) (u : Char)
    (hu : u = 's' ∨ u = 'm' ∨ u = 'h' ∨ u = 'd')
    (hf : env.pyFloat numStr = some N) :
    parseTimeParam env (some (.str ("-" ++ numStr ++ String.singleton u)))
      = .ok (some (env.now - N * unitSeconds u)) := by
  have hdata : ("-" ++ numStr ++ String.singleton u).data = '-' :: (numStr.data ++ [u]) := by
    simp [String.data_append]
  have h1 : (numStr.data ++ [u]).dropLast = numStr.data := List.dropLast_concat
  have h2 : env.pyFloat (String.mk numStr.data) = some N := hf
  have h3 : ('-' :: (numStr.data ++ [u])).getLast? = some u :=
    List.getLast?_concat ('-' :: numStr.data)
  rcases hu with h | h | h | h <;> subst h <;>
    simp [parseTimeParam, parseTimeStr, relBranch, hdata, h1, h2, h3, unitSeconds, Except.map]

/-- Witness for C7: `-2h` two hours before a clock reading 1000. -/
theorem parse_time_relative_offset_witness :
    parseTimeParam ⟨1000, fun s => if s = "2" then some 2 else none, fun _ => none⟩
        (some (.str ("-" ++ "2" ++ String.singleton 'h')))
      = .ok (some (1000 - 2 * unitSeconds 'h')) :=
  parse_time_relative_offset _ "2" 2 'h' (Or.inr (Or.inr (Or.inl rfl))) rfl

/-- C10: with `recursive=True` and no `**` in the pattern, `glob` and
`iglob` hand `find` the pattern prefixed with `**/`; otherwise the pattern
reaches `find` unchanged. -/
theorem glob_recursive_pattern_rewrite (g : GlobArgs) :
    (g.recursive = true → strContains g.pattern "**" = false →
      (globFindArgs g).pattern = "**/" ++ g.pattern
        ∧ (iglobFindArgs g).pattern = "**/" ++ g.pattern)
      ∧ ((g.recursive = false ∨ strContains g.pattern "**" = true) →
        (globFindArgs g).pattern = g.pattern
          ∧ (iglobFindArgs g).pattern = g.pattern) := by
  constructor
  · intro hr hc
    simp [globFindArgs, iglobFindArgs, hr, hc]
  · intro h
    rcases h with h | h <;> simp [globFindArgs, iglobFindArgs, h]

/-- Witness for C10: a recursive `*.py` pattern gains the `**/` prefix. -/
theorem glob_recursive_pattern_rewrite_witness :
    (globFindArgs ⟨"*.py", true, none, false⟩).pattern = "**/" ++ "*.py"
      ∧ (iglobFindArgs ⟨"*.py", true, none, false⟩).pattern = "**/" ++ "*.py" :=
  (glob_recursive_pattern_rewrite ⟨"*.py", true, none, false⟩).1 rfl (by decide)

/-- C8 counterexample: `_parse_size("")` returns 0 bytes instead of raising
`ValueError`, although the empty string does not match the size regex — the
falsy-input check runs first. -/
theorem parse_size_empty_not_error :
    pyParseSize "" = .ok 0 ∧ ∀ m, pyParseSize "" ≠ Except.error m :=
  ⟨rfl, fun _ h => Except.noConfusion h⟩

/-- C8 as amended: a non-empty string that — after ASCII lowercasing and
stripping of outer whitespace — consists of decimal digits, an optional
fractional part, optional internal whitespace, an optional unit `k`/`m`/
`g`/`t` and an optional trailing `b` parses to `int(n * 1024^r)`; every
other non-empty string raises `ValueError`; the empty string returns 0. -/
theorem parse_size_spec :
    pyParseSize "" = .ok 0
      ∧ (∀ s ip fp sp u b, s ≠ "" → SizeComponentsOk ip fp sp u →
          pyStrip (s.data.map Char.toLower) = goodSizeForm ip fp sp u b →
          pyParseSize s = .ok (pyTrunc (decimalVal ip fp * multiplier u)))
      ∧ (∀ s, s ≠ "" →
          (∀ ip fp sp u b, SizeComponentsOk ip fp sp u →
            pyStrip (s.data.map Char.toLower) ≠ goodSizeForm ip fp sp u b) →
          ∃ m, pyParseSize s = .error m) := by
  refine ⟨rfl, ?_, ?_⟩
  · intro s ip fp sp u b hs hok hform
    simp [pyParseSize, hs, hform, matchSizeRegex_good b hok]
  · intro s hs hbad
    rcases hm : matchSizeRegex (pyStrip (s.data.map Char.toLower)) with _ | ⟨q, u⟩
    · refine ⟨"Invalid size format: " ++ String.mk (pyStrip (s.data.map Char.toLower))
        ++ ". Use formats like 10k, 1M, 500G", ?_⟩
      simp [pyParseSize, hs, hm]
    · obtain ⟨ip, fp, sp, b, hok, hform, hq⟩ := matchSizeRegex_inv hm
      exact absurd hform (hbad ip fp sp u b hok)

/-- Witness for C8: `"1.5K"` (uppercase unit) parses to
`int(1.5 * 1024) = 1536` bytes. -/
theorem parse_size_spec_witness :
    pyParseSize "1.5K" = .ok (pyTrunc (decimalVal ['1'] ['5'] * multiplier (some 'k'))) :=
  parse_size_spec.2.1 "1.5K" ['1'] ['5'] [] (some 'k') false (by decide)
    ⟨by decide, by decide, by decide, by decide, fun c hc => by cases hc; decide⟩
    (by decide)

end VexyGlob
